import Mathlib

/-!
Shallow embedding of the token and session management core of the
strava-hooks repository (package `app`): the symmetric cipher
(`SecretKeyFromHex` / `Encrypt` / `Decrypt` over NaCl secretbox), the JWT
bearer-token codec (`GenerateJWT` / `VerifyJWT` over golang-jwt v5), the
redis-backed `Store` operations, and the `/token/verify` HTTP handler.

Modelling conventions:
* bytes are `Nat` (with `% 16` / `% 256` where the Go byte width matters);
  epoch times and durations are `Int` seconds, and `time.Now()` is an
  explicit `now` parameter;
* randomness (nonces, state tokens, jti values) is passed in as explicit
  parameters;
* the NaCl secretbox primitive is modelled symbolically: a sealed box
  records the nonce, the 32-byte key and the plaintext, and `Open`
  succeeds exactly when the key matches (ideal authenticated encryption);
  everything around it (hex decoding of secrets, the 32-byte prefix rule,
  the 24-byte length check, base64 framing) follows the Go code;
* the redis client is an explicit state value (association list of keys
  with values and absolute expiry times); transport failures are not
  modelled except where a claim needs them (`hsetOk` on `SaveToken`).
-/

namespace StravaHooks

/-! ### Hex encoding/decoding (Go `encoding/hex`) -/

/-- Value of one hex digit, as accepted by Go `hex.DecodeString`
(digits, lowercase and uppercase letters). -/
def hexDigitVal (c : Char) : Option Nat :=
  if '0' ≤ c ∧ c ≤ '9' then some (c.toNat - '0'.toNat)
  else if 'a' ≤ c ∧ c ≤ 'f' then some (c.toNat - 'a'.toNat + 10)
  else if 'A' ≤ c ∧ c ≤ 'F' then some (c.toNat - 'A'.toNat + 10)
  else none

/-- Go `hex.DecodeString` on a character list: two hex digits per byte,
errors on an odd length or an invalid digit. -/
def hexDecodeList : List Char → Option (List Nat)
  | [] => some []
  | [_] => none
  | c1 :: c2 :: rest => do
    let h ← hexDigitVal c1
    let l ← hexDigitVal c2
    let r ← hexDecodeList rest
    some ((h * 16 + l) :: r)

def hexDecode (s : String) : Option (List Nat) :=
  hexDecodeList s.data

/-- Go's `hextable` used by `hex.EncodeToString`. -/
def hextable : List Char := "0123456789abcdef".data

/-- One output character of `hex.EncodeToString`; the `% 16` makes the
nibble arithmetic explicit on `Nat`. -/
def hexDigitChar (n : Nat) : Char :=
  hextable.getD (n % 16) '0'

/-- Go `hex.EncodeToString`: `hextable[b>>4]` then `hextable[b&0x0f]`
for each byte. -/
def hexEncodeList : List Nat → List Char
  | [] => []
  | b :: rest => hexDigitChar (b / 16) :: hexDigitChar b :: hexEncodeList rest

def hexEncode (bytes : List Nat) : String :=
  ⟨hexEncodeList bytes⟩

/-! ### Base64 (Go `encoding/base64` StdEncoding, decode direction) -/

def b64Val (c : Char) : Option Nat :=
  if 'A' ≤ c ∧ c ≤ 'Z' then some (c.toNat - 'A'.toNat)
  else if 'a' ≤ c ∧ c ≤ 'z' then some (c.toNat - 'a'.toNat + 26)
  else if '0' ≤ c ∧ c ≤ '9' then some (c.toNat - '0'.toNat + 52)
  else if c = '+' then some 62
  else if c = '/' then some 63
  else none

/-- Go `base64.StdEncoding.DecodeString`: groups of four characters,
padding only in the final group, empty input decodes to no bytes. -/
def b64DecodeList : List Char → Option (List Nat)
  | [] => some []
  | [a, b, '=', '='] => do
    let x ← b64Val a
    let y ← b64Val b
    some [x * 4 + y / 16]
  | [a, b, c, '='] => do
    let x ← b64Val a
    let y ← b64Val b
    let z ← b64Val c
    some [x * 4 + y / 16, y % 16 * 16 + z / 4]
  | a :: b :: c :: d :: rest => do
    let x ← b64Val a
    let y ← b64Val b
    let z ← b64Val c
    let w ← b64Val d
    let r ← b64DecodeList rest
    some ((x * 4 + y / 16) :: (y % 16 * 16 + z / 4) :: (z % 4 * 64 + w) :: r)
  | _ => none

/-! ### Integer parsing (Go `strconv.ParseInt`, as invoked by the
go-redis struct scanner on the `expires_at` hash field; int64 overflow is
not modelled since the stored values come from `fmt.Sprintf("%d", ·)`) -/

def parseDigitsAux : List Char → Nat → Option Nat
  | [], acc => some acc
  | c :: rest, acc =>
    if '0' ≤ c ∧ c ≤ '9' then parseDigitsAux rest (acc * 10 + (c.toNat - '0'.toNat))
    else none

def parseInt (s : String) : Option Int :=
  match s.data with
  | [] => none
  | '-' :: rest =>
    if rest = [] then none else (parseDigitsAux rest 0).map (fun n => -(n : Int))
  | '+' :: rest =>
    if rest = [] then none else (parseDigitsAux rest 0).map (fun n => (n : Int))
  | l => (parseDigitsAux l 0).map (fun n => (n : Int))

/-! ### Symmetric cipher (`crypto.go`: `SecretKeyFromHex`, `Encrypt`, `Decrypt`) -/

inductive CryptoErr
  /-- "failed to decode hex string" (from `SecretKeyFromHex`). -/
  | badHex
  /-- "secret must be at least 32 bytes, got %d bytes". -/
  | secretTooShort (n : Nat)
  /-- "failed to decode base64" (from `Decrypt`). -/
  | badBase64
  /-- "ciphertext too short" (decoded value shorter than the 24-byte nonce). -/
  | ciphertextTooShort
  /-- "decryption failed: invalid secret or corrupted data" (`secretbox.Open` returned false). -/
  | openFailed
deriving DecidableEq, Repr

/-- `SecretKeyFromHex`: hex-decode the secret, require at least 32 bytes,
use only the first 32 bytes. -/
def SecretKeyFromHex (hexSecret : String) : Except CryptoErr (List Nat) :=
  match hexDecode hexSecret with
  | none => .error .badHex
  | some decoded =>
    if decoded.length < 32 then .error (.secretTooShort decoded.length)
    else .ok (decoded.take 32)

/-- The string produced by `Encrypt` (base64 of nonce ++ secretbox seal),
or any other string that may sit in the store.  A `.b64 nonce key plain`
value stands for `base64.StdEncoding.EncodeToString(secretbox.Seal(nonce[:],
plain, nonce, key))` with the secretbox sealing kept symbolic; its decoded
length is `24 + length plain + 16 ≥ 24`, so `Decrypt`'s length check always
passes on it. -/
inductive CtStr
  | b64 (nonce : List Nat) (key : List Nat) (plain : String)
  | raw (s : String)
deriving DecidableEq, Repr

/-- `Encrypt`: draw a nonce (here a parameter), derive the key via
`SecretKeyFromHex`, seal, base64-encode.  Only the secret derivation can
fail. -/
def Encrypt (plaintext : String) (hexSecret : String) (nonce : List Nat) :
    Except CryptoErr CtStr :=
  match SecretKeyFromHex hexSecret with
  | .error e => .error e
  | .ok key => .ok (.b64 nonce key plaintext)

/-- `Decrypt`: base64-decode, check the 24-byte nonce prefix, derive the
key, `secretbox.Open`.  On a `.b64` value the decode and length check
always succeed (see `CtStr`), and `Open` succeeds exactly when the derived
key equals the sealing key; on a `.raw` string the bytes are not a
secretbox seal, so `Open` fails whenever the length check passes. -/
def Decrypt (ciphertext : CtStr) (hexSecret : String) : Except CryptoErr String :=
  match ciphertext with
  | .b64 _ key plain =>
    match SecretKeyFromHex hexSecret with
    | .error e => .error e
    | .ok sk => if sk = key then .ok plain else .error .openFailed
  | .raw s =>
    match b64DecodeList s.data with
    | none => .error .badBase64
    | some encrypted =>
      if encrypted.length < 24 then .error .ciphertextTooShort
      else
        match SecretKeyFromHex hexSecret with
        | .error e => .error e
        | .ok _ => .error .openFailed

/-! ### Bearer token codec (`crypto.go`: `GenerateJWT`, `VerifyJWT`,
over golang-jwt/jwt v5) -/

/-- Signing algorithm of a token, as seen by the `VerifyJWT` keyfunc:
`SigningMethodHS256` is what `GenerateJWT` uses; any non-HMAC method is
rejected by the keyfunc ("unexpected signing method"). -/
inductive SigAlg
  | hs256
  | nonHMAC (name : String)
deriving DecidableEq, Repr

/-- The registered claims set by `GenerateJWT` (`jwt.RegisteredClaims`:
`ID`, `ExpiresAt`, `IssuedAt`, `NotBefore`, as epoch seconds). -/
structure RegisteredClaims where
  id : String
  expiresAt : Int
  issuedAt : Int
  notBefore : Int
deriving DecidableEq, Repr

/-- `TokenClaims`: the custom `athlete_id`, `expires_at` and `jti` claims
plus the embedded registered claims. -/
structure TokenClaims where
  athleteID : Int
  expiresAt : Int
  jti : String
  registered : RegisteredClaims
deriving DecidableEq, Repr

/-- Symbolic HMAC signature over the token's claims and algorithm: a
signature verifies under `secret` exactly when it was produced by signing
these claims with this algorithm under `secret` (unforgeability of the
MAC, taken as the symbolic model of HS256). -/
structure JWTSig where
  key : String
  signedClaims : TokenClaims
  signedAlg : SigAlg
deriving DecidableEq, Repr

/-- A compact serialized JWT: header (algorithm), claims, signature. -/
structure JWTToken where
  claims : TokenClaims
  alg : SigAlg
  sig : JWTSig
deriving DecidableEq, Repr

def signToken (claims : TokenClaims) (alg : SigAlg) (secret : String) : JWTToken :=
  ⟨claims, alg, ⟨secret, claims, alg⟩⟩

def sigVerifies (tok : JWTToken) (secret : String) : Bool :=
  tok.sig = ⟨secret, tok.claims, tok.alg⟩

/-- `GenerateJWT`: build `TokenClaims` with `expiresAt = now + duration`,
`IssuedAt = NotBefore = now`, a fresh random `jti` (a parameter here), and
sign with HS256 under `secret`.  The source also returns the jti. -/
def GenerateJWT (athleteID : Int) (secret : String) (expirationDuration : Int)
    (now : Int) (jti : String) : JWTToken :=
  let expiresAt := now + expirationDuration
  signToken ⟨athleteID, expiresAt, jti, ⟨jti, expiresAt, now, now⟩⟩ .hs256 secret

inductive JwtErr
  /-- keyfunc error: "unexpected signing method". -/
  | badSigningMethod
  /-- `jwt.ErrTokenSignatureInvalid`. -/
  | signatureInvalid
  /-- `jwt.ErrTokenInvalidClaims` (expired / used before `nbf`). -/
  | claimsInvalid
deriving DecidableEq, Repr

/-- Default claims validation performed inside `jwt.ParseWithClaims` (v5):
with no parser options, `exp` must be strictly in the future and `nbf`
must not be in the future; `iat` is not checked. -/
def validateClaims (c : TokenClaims) (now : Int) : Bool :=
  decide (now < c.registered.expiresAt) && decide (c.registered.notBefore ≤ now)

/-- `jwt.ParseWithClaims` with the keyfunc from `VerifyJWT`: reject
non-HMAC algorithms, verify the signature, then run the default claims
validation (signature first, claims second, as in jwt v5 `parser.Parse`). -/
def parseWithClaims (tok : JWTToken) (secret : String) (now : Int) :
    Except JwtErr TokenClaims :=
  match tok.alg with
  | .nonHMAC _ => .error .badSigningMethod
  | .hs256 =>
    if sigVerifies tok secret then
      if validateClaims tok.claims now then .ok tok.claims
      else .error .claimsInvalid
    else .error .signatureInvalid

/-- `VerifyJWT`: parse and validate; on success `token.Valid` is true and
the claims are returned, otherwise the parse error is returned. -/
def VerifyJWT (tok : JWTToken) (secret : String) (now : Int) :
    Except JwtErr TokenClaims :=
  parseWithClaims tok secret now

/-! ### Redis model

The store's redis database: an association list of keys carrying either a
string value or a hash (field/value list), each with an optional absolute
expiry.  A key whose expiry is `≤ now` has timed out and is treated as
absent (redis removes expired keys on access).  Writes keep keys unique. -/

inductive RVal
  | str (s : String)
  | hash (fields : List (String × CtStr))
deriving DecidableEq, Repr

structure REntry where
  key : String
  val : RVal
  expireAt : Option Int
deriving DecidableEq, Repr

def REntry.live (e : REntry) (now : Int) : Bool :=
  match e.expireAt with
  | none => true
  | some t => decide (now < t)

abbrev RedisState : Type := List REntry

/-- Read a live key (`GET` and the existence test behind `EXISTS`). -/
def rget (st : RedisState) (now : Int) (k : String) : Option RVal :=
  (st.find? (fun e => e.key = k && e.live now)).map (·.val)

/-- Remove a key (the delete half of `GETDEL`). -/
def rdel (st : RedisState) (k : String) : RedisState :=
  st.filter (fun e => ¬ e.key = k)

/-- Write a key, replacing any previous entry (`SET`, and the entry
replacement inside `HSET`). -/
def rset (st : RedisState) (k : String) (v : RVal) (expireAt : Option Int) :
    RedisState :=
  ⟨k, v, expireAt⟩ :: rdel st k

/-- Field update of `HSET`: new fields override existing ones, other
fields stay. -/
def hsetFields (old new : List (String × CtStr)) : List (String × CtStr) :=
  new ++ old.filter (fun p => ¬ new.any (fun q => q.1 = p.1))

/-- `HSET`: merge fields into an existing live hash (keeping its TTL), or
create a fresh hash with no TTL.  Returns `none` on a WRONGTYPE error
(key holds a plain string). -/
def rhset (st : RedisState) (now : Int) (k : String)
    (fields : List (String × CtStr)) : Option RedisState :=
  match st.find? (fun e => e.key = k && e.live now) with
  | some e =>
    match e.val with
    | .hash old => some (rset st k (.hash (hsetFields old fields)) e.expireAt)
    | .str _ => none
  | none => some (rset st k (.hash (hsetFields [] fields)) none)

/-- Read one field of a live hash key (a single `HMGET` position). -/
def rhget (st : RedisState) (now : Int) (k f : String) : Option CtStr :=
  match rget st now k with
  | some (.hash fields) => (fields.find? (fun p => p.1 = f)).map (·.2)
  | _ => none

/-- `EXPIRE`: set the absolute expiry of a key to `now + ttl`. -/
def rexpire (st : RedisState) (now : Int) (k : String) (ttl : Int) : RedisState :=
  st.map (fun e => if e.key = k then ⟨e.key, e.val, some (now + ttl)⟩ else e)

/-- `TTL` on a live key: remaining seconds, or `none` for a key with no
expiry (redis answers -1 there). -/
def rttlRemaining (st : RedisState) (now : Int) (k : String) : Option Int :=
  match st.find? (fun e => e.key = k && e.live now) with
  | some e => e.expireAt.map (fun t => t - now)
  | none => none

/-! ### Store operations (`store.go`) -/

/-- `TokenInfo`: the upstream access/refresh token pair with its absolute
expiry (epoch seconds). -/
structure TokenInfo where
  AccessToken : String
  RefreshToken : String
  ExpiresAt : Int
deriving DecidableEq, Repr

/-- Error kinds surfaced by the store operations, one per distinct error
return in `store.go`. -/
inductive Err
  /-- `redis.Nil` passed through by `fetchTokenInfo` (the athlete-not-found
  kind the source intends for a missing record). -/
  | redisNil
  /-- any other redis command failure (transport, WRONGTYPE, scan failure). -/
  | redisFailed (op : String)
  /-- "failed to decrypt access token: %w". -/
  | decryptAccess (e : CryptoErr)
  /-- "failed to decrypt refresh token: %w". -/
  | decryptRefresh (e : CryptoErr)
  /-- "failed to encrypt access token: %w". -/
  | encryptAccess (e : CryptoErr)
  /-- "failed to encrypt refresh token: %w". -/
  | encryptRefresh (e : CryptoErr)
  /-- "invalid or expired state token". -/
  | invalidState
  /-- "session ID mismatch". -/
  | sessionMismatch
  /-- "token already expired" (`SaveJWTToken`). -/
  | alreadyExpired
  /-- "token not found or already expired" (`RevokeJWTToken`). -/
  | notFound
  /-- refresh network or JSON-decode failure inside `refreshToken`. -/
  | upstream (msg : String)
deriving DecidableEq, Repr

def athleteKey (athleteId : Int) : String :=
  "athlete:" ++ toString athleteId ++ ":strava-token"

/-- `SaveToken`: encrypt both tokens independently (fresh nonce each, here
`n1`/`n2`) and `HSET` the ciphertexts alongside the decimal-printed expiry.
`hsetOk = false` injects the redis write failure the source checks for;
in that case (and on a WRONGTYPE) nothing is written. -/
def SaveToken (st : RedisState) (now : Int) (secret : String) (n1 n2 : List Nat)
    (hsetOk : Bool) (athleteId : Int) (token : TokenInfo) :
    Except Err Unit × RedisState :=
  let authKey := athleteKey athleteId
  match Encrypt token.AccessToken secret n1 with
  | .error e => (.error (.encryptAccess e), st)
  | .ok encryptedAccessToken =>
    match Encrypt token.RefreshToken secret n2 with
    | .error e => (.error (.encryptRefresh e), st)
    | .ok encryptedRefreshToken =>
      if hsetOk then
        match rhset st now authKey
            [("access_token", encryptedAccessToken),
             ("refresh_token", encryptedRefreshToken),
             ("expires_at", .raw (toString token.ExpiresAt))] with
        | some st1 => (.ok (), st1)
        | none => (.error (.redisFailed "hset"), st)
      else (.error (.redisFailed "hset"), st)

/-- The `HMGet(...).Scan(&tokenInfo)` step of `fetchTokenInfo`.  go-redis
`HMGET` never returns `redis.Nil`: a missing key yields nil for every
field, and the struct scanner skips nil values, leaving the zero values
`""`/`""`/`0` — so the source's `err == redis.Nil` branch is unreachable.
A present but non-integer `expires_at` makes the scanner fail. -/
def hmgetTokenInfo (st : RedisState) (now : Int) (key : String) :
    Except Err (CtStr × CtStr × Int) :=
  match rget st now key with
  | none => .ok (.raw "", .raw "", 0)
  | some (.str _) => .error (.redisFailed "wrongtype")
  | some (.hash fields) =>
    let acc : CtStr :=
      ((fields.find? (fun p => p.1 = "access_token")).map (fun p => p.2)).getD (.raw "")
    let refr : CtStr :=
      ((fields.find? (fun p => p.1 = "refresh_token")).map (fun p => p.2)).getD (.raw "")
    match ((fields.find? (fun p => p.1 = "expires_at")).map (fun p => p.2) : Option CtStr) with
    | none => .ok (acc, refr, 0)
    | some (.raw s) =>
      match parseInt s with
      | some e => .ok (acc, refr, e)
      | none => .error (.redisFailed "scan")
    | some (.b64 _ _ _) => .error (.redisFailed "scan")

deriving instance DecidableEq for Except

/-- Result of `fetchTokenInfo`: the returned value or error, the store
state afterwards, and how many calls went to the upstream token endpoint. -/
structure FetchResult where
  res : Except Err TokenInfo
  st : RedisState
  refreshCalls : Nat
deriving DecidableEq, Repr

/-- `refreshToken`: POST the refresh token to the upstream token endpoint
(the `upstream` oracle covers both the network call and the JSON decode of
its body), then persist the new pair via `SaveToken` — whose error the
source DISCARDS (`s.SaveToken(AthleteId, newToken)` with no `err =`) —
and return the new pair. -/
def refreshToken (st : RedisState) (now : Int) (secret : String)
    (upstream : String → Except String TokenInfo) (n1 n2 : List Nat)
    (hsetOk : Bool) (athleteId : Int) (token : TokenInfo) : FetchResult :=
  match upstream token.RefreshToken with
  | .error msg => ⟨.error (.upstream msg), st, 1⟩
  | .ok newToken =>
    let save := SaveToken st now secret n1 n2 hsetOk athleteId newToken
    ⟨.ok newToken, save.2, 1⟩

/-- `fetchTokenInfo`: HMGET + scan the record, decrypt both tokens, and
if the stored expiry is strictly before `now`, refresh. -/
def fetchTokenInfo (st : RedisState) (now : Int) (secret : String)
    (upstream : String → Except String TokenInfo) (n1 n2 : List Nat)
    (hsetOk : Bool) (athleteId : Int) : FetchResult :=
  let authKey := athleteKey athleteId
  match hmgetTokenInfo st now authKey with
  | .error e => ⟨.error e, st, 0⟩
  | .ok (accCt, refrCt, expiresAt) =>
    match Decrypt accCt secret with
    | .error e => ⟨.error (.decryptAccess e), st, 0⟩
    | .ok accessToken =>
      match Decrypt refrCt secret with
      | .error e => ⟨.error (.decryptRefresh e), st, 0⟩
      | .ok refreshTok =>
        if expiresAt < now then
          refreshToken st now secret upstream n1 n2 hsetOk athleteId
            ⟨accessToken, refreshTok, expiresAt⟩
        else ⟨.ok ⟨accessToken, refreshTok, expiresAt⟩, st, 0⟩

/-- `FetchToken`: `fetchTokenInfo` and project the access token. -/
def FetchToken (st : RedisState) (now : Int) (secret : String)
    (upstream : String → Except String TokenInfo) (n1 n2 : List Nat)
    (hsetOk : Bool) (athleteId : Int) : Except Err String × RedisState :=
  let r := fetchTokenInfo st now secret upstream n1 n2 hsetOk athleteId
  match r.res with
  | .error e => (.error e, r.st)
  | .ok tokenInfo => (.ok tokenInfo.AccessToken, r.st)

/-! ### CSRF state ledger (`store.go`: `SaveOAuthState`, `GetOAuthState`) -/

/-- `SaveOAuthState`: `generateStateToken` hex-encodes 32 random bytes
(the `randBytes` parameter); the value stored under `oauth:state:<token>`
for 10 minutes is the session ID if provided, else the decimal timestamp;
the returned state is `token` or `token:sessionID`. -/
def SaveOAuthState (st : RedisState) (now : Int) (randBytes : List Nat)
    (sessionID : String) : Except Err String × RedisState :=
  let state := hexEncode randBytes
  let key := "oauth:state:" ++ state
  let value := if sessionID ≠ "" then sessionID else toString now
  let st1 := rset st key (.str value) (some (now + 600))
  let stateOut := if sessionID ≠ "" then state ++ ":" ++ sessionID else state
  (.ok stateOut, st1)

/-- The byte scan at the top of `GetOAuthState`: position of the first
`':'`, returning the pieces before and after it. -/
def splitAtFirstColon : List Char → Option (List Char × List Char)
  | [] => none
  | c :: rest =>
    if c = ':' then some ([], rest)
    else (splitAtFirstColon rest).map (fun p => (c :: p.1, p.2))

/-- `GetOAuthState`'s split of the incoming state: only a colon at index
`> 0` separates `stateToken` from `sessionID`; otherwise the whole string
is the state token and the session ID stays empty. -/
def splitState (state : String) : String × String :=
  match splitAtFirstColon state.data with
  | some (before, after) =>
    if before = [] then (state, "") else (⟨before⟩, ⟨after⟩)
  | none => (state, "")

/-- `GetOAuthState`: split out an embedded session ID, `GETDEL` the state
key in one atomic step, and verify the stored value against the embedded
session ID when one was present. -/
def GetOAuthState (st : RedisState) (now : Int) (state : String) :
    Except Err String × RedisState :=
  let parts := splitState state
  let stateToken := parts.1
  let sessionID := parts.2
  let key := "oauth:state:" ++ stateToken
  match rget st now key with
  | none => (.error .invalidState, st)
  | some (.hash _) => (.error (.redisFailed "wrongtype"), st)
  | some (.str storedValue) =>
    let st1 := rdel st key
    if sessionID ≠ "" ∧ storedValue ≠ sessionID then (.error .sessionMismatch, st1)
    else (.ok sessionID, st1)

/-! ### Revocation ledger (`store.go`: `SaveJWTToken`, `RevokeJWTToken`,
`IsJWTRevoked`) -/

/-- `SaveJWTToken`: refuse a token whose remaining lifetime is
non-positive; otherwise HSET the metadata under `jwt:jti:<jti>` and set
its expiry to the token's expiry. -/
def SaveJWTToken (st : RedisState) (now : Int) (jti : String) (athleteID : Int)
    (issuedAt expiresAt : Int) : Except Err Unit × RedisState :=
  let key := "jwt:jti:" ++ jti
  let ttl := expiresAt - now
  if ttl ≤ 0 then (.error .alreadyExpired, st)
  else
    match rhset st now key
        [("athlete_id", .raw (toString athleteID)),
         ("issued_at", .raw (toString issuedAt)),
         ("expires_at", .raw (toString expiresAt))] with
    | none => (.error (.redisFailed "hset"), st)
    | some st1 => (.ok (), rexpire st1 now key ttl)

/-- `RevokeJWTToken`: require the registration to still exist, read its
remaining TTL, and SET `jwt:revoked:<jti>` with that same TTL.  A live
registration without a TTL would make redis `SET` with expiry -1s fail;
`SaveJWTToken` always sets one. -/
def RevokeJWTToken (st : RedisState) (now : Int) (jti : String) :
    Except Err Unit × RedisState :=
  let jwtKey := "jwt:jti:" ++ jti
  if (rget st now jwtKey).isSome then
    match rttlRemaining st now jwtKey with
    | none => (.error (.redisFailed "set with negative ttl"), st)
    | some ttl =>
      (.ok (), rset st ("jwt:revoked:" ++ jti) (.str (toString now)) (some (now + ttl)))
  else (.error .notFound, st)

/-- `IsJWTRevoked`: existence of the revocation marker. -/
def IsJWTRevoked (st : RedisState) (now : Int) (jti : String) : Bool :=
  (rget st now ("jwt:revoked:" ++ jti)).isSome

/-! ### `/token/verify` handler (`token_api.go`: `handleTokenVerify`) -/

/-- The Authorization header as the handler sees it: absent, not of the
form `Bearer <token>`, or carrying a bearer token (the byte-level prefix
split is elided; the token itself is the symbolic JWT). -/
inductive AuthHeader
  | missing
  | malformed
  | bearer (tok : JWTToken)

/-- Body of an `echo.NewHTTPError`: either a plain message string or the
structured `token_expired` map built at `token_api.go:292`. -/
inductive ErrMsg
  | str (s : String)
  | tokenExpired (expiresAt : Int)
deriving DecidableEq, Repr

inductive VerifyResponse
  | ok (athleteID : Int) (expiresAt : Int) (issuedAt : Int) (jti : String)
  | httpError (status : Nat) (msg : ErrMsg)
deriving DecidableEq, Repr

/-- `handleTokenVerify`: extract the bearer token, `VerifyJWT` it, then
check the custom `expires_at` claim against `now`, then the revocation
marker, and answer with the claims.  The redis-failure 500 branch is not
modelled (the model's existence check is total). -/
def handleTokenVerify (auth : AuthHeader) (secret : String) (now : Int)
    (st : RedisState) : VerifyResponse :=
  match auth with
  | .missing => .httpError 401 (.str "Authorization header required")
  | .malformed => .httpError 401 (.str "Invalid authorization format")
  | .bearer tok =>
    match VerifyJWT tok secret now with
    | .error _ => .httpError 401 (.str "Invalid or expired token")
    | .ok claims =>
      if claims.expiresAt < now then
        .httpError 401 (.tokenExpired claims.expiresAt)
      else if IsJWTRevoked st now claims.jti then
        .httpError 401 (.str "Token has been revoked")
      else
        .ok claims.athleteID claims.expiresAt claims.registered.issuedAt claims.jti

/-! ## Theorems -/

/-- C1: for every hex-encoded secret that decodes to at least 32 bytes
(equivalently, every secret on which `Encrypt` succeeds) and every
plaintext, decrypting the result of `Encrypt` with the same secret
returns the original plaintext. -/
theorem C1_encrypt_then_decrypt (p s : String) (n : List Nat) (c : CtStr)
    (h : Encrypt p s n = .ok c) : Decrypt c s = .ok p := by
  unfold Encrypt at h
  cases hk : SecretKeyFromHex s with
  | error e => rw [hk] at h; cases h
  | ok k =>
    rw [hk] at h
    cases h
    simp [Decrypt, hk]

/-- Witness for C1 at a concrete 32-byte secret, plaintext and nonce. -/
theorem C1_witness :
    Decrypt (.b64 (List.replicate 24 0) (List.replicate 32 0) "upstream-access-token")
      "0000000000000000000000000000000000000000000000000000000000000000" =
      .ok "upstream-access-token" :=
  C1_encrypt_then_decrypt "upstream-access-token"
    "0000000000000000000000000000000000000000000000000000000000000000"
    (List.replicate 24 0) _ (by decide)

/-- C5 counterexample: the two distinct hex secrets `"00…0"` (64 digits)
and `"00…0"` (66 digits) derive the same 32-byte key, because only the
first 32 decoded bytes are used; decrypting with the second secret
therefore SUCCEEDS, refuting the claim that decryption fails for every
pair of distinct secrets. -/
theorem C5_counterexample :
    ("0000000000000000000000000000000000000000000000000000000000000000" : String) ≠
      "000000000000000000000000000000000000000000000000000000000000000000" ∧
    Encrypt "secret message"
      "0000000000000000000000000000000000000000000000000000000000000000"
      (List.replicate 24 0) =
      .ok (.b64 (List.replicate 24 0) (List.replicate 32 0) "secret message") ∧
    Decrypt (.b64 (List.replicate 24 0) (List.replicate 32 0) "secret message")
      "000000000000000000000000000000000000000000000000000000000000000000" =
      .ok "secret message" := by
  refine ⟨by decide, by decide, by decide⟩

/-- C5 (amended): decrypting `Encrypt p s n` with a second secret fails
(`secretbox.Open` returns false) whenever the two secrets derive
DIFFERENT 32-byte keys under `SecretKeyFromHex`; secrets whose hex
decodings share the first 32 bytes decrypt successfully. -/
theorem C5_decrypt_wrong_key_fails (p s s2 : String) (n k k2 : List Nat) (c : CtStr)
    (hk : SecretKeyFromHex s = .ok k) (hk2 : SecretKeyFromHex s2 = .ok k2)
    (hne : k2 ≠ k) (hc : Encrypt p s n = .ok c) :
    Decrypt c s2 = .error .openFailed := by
  unfold Encrypt at hc
  rw [hk] at hc
  cases hc
  simp [Decrypt, hk2, hne]

/-- Witness for C5's amended theorem: keys of all zero bytes versus all
0x11 bytes. -/
theorem C5_wrong_key_witness :
    Decrypt (.b64 (List.replicate 24 0) (List.replicate 32 0) "secret message")
      "1111111111111111111111111111111111111111111111111111111111111111" =
      .error .openFailed :=
  C5_decrypt_wrong_key_fails "secret message"
    "0000000000000000000000000000000000000000000000000000000000000000"
    "1111111111111111111111111111111111111111111111111111111111111111"
    (List.replicate 24 0) (List.replicate 32 0) (List.replicate 32 17) _
    (by decide) (by decide) (by decide) (by decide)

/-- C2 counterexample: a token issued by `GenerateJWT` whose expiry is one
second in the past (issued at `now = 1000` with duration `-1`), presented
to the `/token/verify` handler under the same deployment secret, draws the
GENERIC 401 body "Invalid or expired token" — not the structured
`token_expired` reason code — even though its signature verifies, because
`jwt.ParseWithClaims` inside `VerifyJWT` already rejects the expired
`exp` claim, so the handler's dedicated `token_expired` branch is never
reached. -/
theorem C2_counterexample :
    handleTokenVerify (.bearer (GenerateJWT 42 "deployment-secret" (-1) 1000 "jti-1"))
      "deployment-secret" 1000 [] = .httpError 401 (.str "Invalid or expired token") ∧
    sigVerifies (GenerateJWT 42 "deployment-secret" (-1) 1000 "jti-1")
      "deployment-secret" = true ∧
    (GenerateJWT 42 "deployment-secret" (-1) 1000 "jti-1").claims.expiresAt = 1000 - 1 ∧
    (VerifyResponse.httpError 401 (.str "Invalid or expired token")) ≠
      .httpError 401 (.tokenExpired (1000 - 1)) := by
  refine ⟨by decide, by decide, by decide, by decide⟩

/-- C2 (amended): a bearer token issued by `GenerateJWT` whose expiry is
in the past (in particular one second in the past) yields 401 from
`handleTokenVerify`, but with the generic "Invalid or expired token"
message: the JWT library's own `exp` validation rejects it inside
`VerifyJWT`, before the handler's `token_expired` branch. -/
theorem C2_expired_token_generic_401 (aid : Int) (secret : String)
    (dur now now2 : Int) (jti : String) (st : RedisState)
    (h : now + dur ≤ now2) :
    handleTokenVerify (.bearer (GenerateJWT aid secret dur now jti)) secret now2 st =
      .httpError 401 (.str "Invalid or expired token") := by
  have hv : validateClaims (GenerateJWT aid secret dur now jti).claims now2 = false := by
    simp [GenerateJWT, signToken, validateClaims]
    omega
  simp [handleTokenVerify, VerifyJWT, parseWithClaims, GenerateJWT, signToken,
    sigVerifies, hv] at hv ⊢

/-- Witness for C2's amended theorem: expiry one second before the time
of verification. -/
theorem C2_expired_witness :
    handleTokenVerify (.bearer (GenerateJWT 42 "deployment-secret" (-1) 1000 "jti-1"))
      "deployment-secret" 1000 [] = .httpError 401 (.str "Invalid or expired token") :=
  C2_expired_token_generic_401 42 "deployment-secret" (-1) 1000 1000 "jti-1" []
    (by omega)

/-- Deleting a key makes it unreadable at every later (or earlier) time:
`rdel` removes every entry with that key. -/
theorem rget_rdel_self (st : RedisState) (now : Int) (k : String) :
    rget (rdel st k) now k = none := by
  unfold rget rdel
  cases hf : (st.filter fun e => ¬ e.key = k).find? (fun e => e.key = k && e.live now) with
  | none => rfl
  | some e =>
    have hp := List.find?_some hf
    have hm := List.mem_of_find?_eq_some hf
    have hnk := (List.mem_filter.mp hm).2
    simp only [Bool.and_eq_true, decide_eq_true_eq] at hp hnk
    exact absurd hp.1 hnk

/-- Reading back a key just written by `rset`, while the written entry is
still live. -/
theorem rget_rset_self (st : RedisState) (now : Int) (k : String) (v : RVal)
    (t : Option Int) (h : REntry.live ⟨k, v, t⟩ now = true) :
    rget (rset st k v t) now k = some v := by
  unfold rget rset
  simp [List.find?, h]

/-- C4: a CSRF state value can be consumed at most once: after a
successful `GetOAuthState` (an atomic `GETDEL` in the model, matching the
redis primitive the source uses), any second `GetOAuthState` with the same
value fails with the invalid-or-expired-state error and leaves the state
unchanged, at any later time. -/
theorem C4_state_single_use (st st1 : RedisState) (now now2 : Int) (v sid : String)
    (h : GetOAuthState st now v = (.ok sid, st1)) :
    GetOAuthState st1 now2 v = (.error .invalidState, st1) := by
  unfold GetOAuthState at h ⊢
  cases hr : rget st now ("oauth:state:" ++ (splitState v).1) with
  | none => simp [hr] at h
  | some rv =>
    cases rv with
    | hash fields => simp [hr] at h
    | str storedValue =>
      simp only [hr] at h
      by_cases hc : (splitState v).2 ≠ "" ∧ storedValue ≠ (splitState v).2
      · simp [hc] at h
      · simp only [if_neg hc] at h
        have hst1 : st1 = rdel st ("oauth:state:" ++ (splitState v).1) := by
          cases h; rfl
        rw [hst1]
        simp [rget_rdel_self]

/-- Witness for C4: one stored state entry, consumed once, then consumed
again. -/
theorem C4_witness :
    GetOAuthState [] 5 "abcd" = (.error .invalidState, []) := by
  have h1 : GetOAuthState [⟨"oauth:state:abcd", .str "1700000000", none⟩] 0 "abcd" =
      (.ok "", []) := by decide
  exact C4_state_single_use _ _ 0 5 "abcd" "" h1

/-- Reading the head entry of a state when it is live. -/
theorem rget_cons_self (rest : RedisState) (now : Int) (k : String) (v : RVal)
    (t : Option Int) (h : REntry.live ⟨k, v, t⟩ now = true) :
    rget (⟨k, v, t⟩ :: rest) now k = some v := by
  unfold rget
  simp [List.find?, h]

/-- C6: `SaveJWTToken` followed immediately by `RevokeJWTToken` makes
`IsJWTRevoked` answer true; `IsJWTRevoked` on an identifier with no
revocation marker answers false; and `RevokeJWTToken` on an identifier
whose registration is absent (never registered, or already expired and
hence gone from redis) fails with the not-found error and writes
nothing. -/
theorem C6_revocation_lifecycle (st : RedisState) (now iat texp : Int)
    (jti : String) (aid : Int) (hlive : now < texp)
    (hnoreg : rget st now ("jwt:jti:" ++ jti) = none)
    (hnorev : rget st now ("jwt:revoked:" ++ jti) = none) :
    (SaveJWTToken st now jti aid iat texp).1 = .ok () ∧
    (RevokeJWTToken (SaveJWTToken st now jti aid iat texp).2 now jti).1 = .ok () ∧
    IsJWTRevoked (RevokeJWTToken (SaveJWTToken st now jti aid iat texp).2 now jti).2
      now jti = true ∧
    IsJWTRevoked st now jti = false ∧
    RevokeJWTToken st now jti = (.error .notFound, st) := by
  have hfind : st.find? (fun e => e.key = ("jwt:jti:" ++ jti) && e.live now) = none := by
    have h' : (st.find? (fun e => e.key = ("jwt:jti:" ++ jti) && e.live now)).map
        REntry.val = none := hnoreg
    exact Option.map_eq_none'.mp h'
  have h1 : SaveJWTToken st now jti aid iat texp =
      (.ok (), rexpire (rset st ("jwt:jti:" ++ jti)
        (.hash (hsetFields []
          [("athlete_id", .raw (toString aid)),
           ("issued_at", .raw (toString iat)),
           ("expires_at", .raw (toString texp))])) none) now ("jwt:jti:" ++ jti)
        (texp - now)) := by
    unfold SaveJWTToken rhset
    rw [if_neg (by omega : ¬ texp - now ≤ 0), hfind]
  have hst2 : rexpire (rset st ("jwt:jti:" ++ jti)
      (.hash (hsetFields []
        [("athlete_id", .raw (toString aid)),
         ("issued_at", .raw (toString iat)),
         ("expires_at", .raw (toString texp))])) none) now ("jwt:jti:" ++ jti)
      (texp - now) =
      (⟨"jwt:jti:" ++ jti,
        .hash (hsetFields []
          [("athlete_id", .raw (toString aid)),
           ("issued_at", .raw (toString iat)),
           ("expires_at", .raw (toString texp))]),
        some texp⟩ : REntry) ::
        rexpire (rdel st ("jwt:jti:" ++ jti)) now ("jwt:jti:" ++ jti) (texp - now) := by
    simp [rexpire, rset, rdel]
  have hlivehead : REntry.live
      ⟨"jwt:jti:" ++ jti,
        .hash (hsetFields []
          [("athlete_id", .raw (toString aid)),
           ("issued_at", .raw (toString iat)),
           ("expires_at", .raw (toString texp))]),
        some texp⟩ now = true := by
    simp [REntry.live]
    omega
  have hget2 : rget (SaveJWTToken st now jti aid iat texp).2 now ("jwt:jti:" ++ jti) =
      some (.hash (hsetFields []
        [("athlete_id", .raw (toString aid)),
         ("issued_at", .raw (toString iat)),
         ("expires_at", .raw (toString texp))])) := by
    rw [h1]
    simp only
    rw [hst2]
    exact rget_cons_self _ now _ _ _ hlivehead
  have httlrem : rttlRemaining (SaveJWTToken st now jti aid iat texp).2 now
      ("jwt:jti:" ++ jti) = some (texp - now) := by
    rw [h1]
    simp only
    rw [hst2]
    unfold rttlRemaining
    simp [List.find?, hlivehead]
  have h3 : RevokeJWTToken (SaveJWTToken st now jti aid iat texp).2 now jti =
      (.ok (), rset (SaveJWTToken st now jti aid iat texp).2 ("jwt:revoked:" ++ jti)
        (.str (toString now)) (some texp)) := by
    unfold RevokeJWTToken
    simp [hget2, httlrem]
  have hlivemark : REntry.live
      ⟨"jwt:revoked:" ++ jti, .str (toString now), some texp⟩ now = true := by
    simp [REntry.live]
    omega
  refine ⟨?_, ?_, ?_, ?_, ?_⟩
  · rw [h1]
  · rw [h3]
  · rw [h3]
    simp only
    unfold IsJWTRevoked
    rw [rget_rset_self _ now _ _ _ hlivemark]
    rfl
  · unfold IsJWTRevoked
    rw [hnorev]
    rfl
  · simp [RevokeJWTToken, hnoreg]

/-- Witness for C6: empty store, registration valid for 10 more seconds. -/
theorem C6_witness :
    (SaveJWTToken [] 0 "j1" 42 0 10).1 = .ok () ∧
    (RevokeJWTToken (SaveJWTToken [] 0 "j1" 42 0 10).2 0 "j1").1 = .ok () ∧
    IsJWTRevoked (RevokeJWTToken (SaveJWTToken [] 0 "j1" 42 0 10).2 0 "j1").2 0 "j1" =
      true ∧
    IsJWTRevoked [] 0 "j1" = false ∧
    RevokeJWTToken [] 0 "j1" = (.error .notFound, []) :=
  C6_revocation_lifecycle [] 0 0 10 "j1" 42 (by omega) (by decide) (by decide)

/-- `find?` ignores the tail when the head part of an append already
matches. -/
theorem list_find?_append_left {α : Type} (l1 l2 : List α) (p : α → Bool) (x : α)
    (h : l1.find? p = some x) : (l1 ++ l2).find? p = some x := by
  rw [List.find?_append, h]
  rfl

/-- Evaluating `rhget` once the key is known to hold a hash. -/
theorem rhget_of_rget_hash (st1 : RedisState) (now : Int) (k f : String)
    (fields : List (String × CtStr)) (h : rget st1 now k = some (.hash fields)) :
    rhget st1 now k f = (fields.find? (fun p => p.1 = f)).map (fun p => p.2) := by
  unfold rhget
  rw [h]

/-- Unpacking a successful `rget`: the found entry has the requested key,
is live, and carries the value. -/
theorem exists_entry_of_rget_some (st : RedisState) (now : Int) (k : String)
    (v : RVal) (h : rget st now k = some v) :
    ∃ e : REntry, st.find? (fun e => e.key = k && e.live now) = some e ∧
      e.val = v ∧ e.key = k ∧ e.live now = true := by
  unfold rget at h
  rcases Option.map_eq_some'.mp h with ⟨e, he, hv⟩
  have hp := List.find?_some he
  simp only [Bool.and_eq_true, decide_eq_true_eq] at hp
  exact ⟨e, he, hv, hp.1, hp.2⟩

/-- C8: `SaveToken` persists only ciphertexts of the access and refresh
tokens — each sealed by a separate `Encrypt` call with its own fresh nonce
— alongside the plaintext decimal expiry; the plaintext access token is
never among the written field values (the `access_token` field is a
sealed box, not a raw string). -/
theorem C8_save_token_encrypts (st : RedisState) (now : Int) (secret : String)
    (n1 n2 k : List Nat) (aid : Int) (tok : TokenInfo)
    (hk : SecretKeyFromHex secret = .ok k)
    (hnostr : ∀ s0, rget st now (athleteKey aid) ≠ some (.str s0)) :
    (SaveToken st now secret n1 n2 true aid tok).1 = .ok () ∧
    rhget (SaveToken st now secret n1 n2 true aid tok).2 now (athleteKey aid)
      "access_token" = some (.b64 n1 k tok.AccessToken) ∧
    rhget (SaveToken st now secret n1 n2 true aid tok).2 now (athleteKey aid)
      "refresh_token" = some (.b64 n2 k tok.RefreshToken) ∧
    rhget (SaveToken st now secret n1 n2 true aid tok).2 now (athleteKey aid)
      "expires_at" = some (.raw (toString tok.ExpiresAt)) := by
  cases hr : rget st now (athleteKey aid) with
  | none =>
    have hfind : st.find? (fun e => e.key = athleteKey aid && e.live now) = none := by
      have h' : (st.find? (fun e => e.key = athleteKey aid && e.live now)).map
          REntry.val = none := hr
      exact Option.map_eq_none'.mp h'
    have hsv : SaveToken st now secret n1 n2 true aid tok =
        (.ok (), rset st (athleteKey aid)
          (.hash (hsetFields []
            [("access_token", .b64 n1 k tok.AccessToken),
             ("refresh_token", .b64 n2 k tok.RefreshToken),
             ("expires_at", .raw (toString tok.ExpiresAt))])) none) := by
      simp [SaveToken, Encrypt, rhset, hk, hfind]
    have hgot : rget (SaveToken st now secret n1 n2 true aid tok).2 now
        (athleteKey aid) =
        some (.hash (hsetFields []
          [("access_token", .b64 n1 k tok.AccessToken),
           ("refresh_token", .b64 n2 k tok.RefreshToken),
           ("expires_at", .raw (toString tok.ExpiresAt))])) := by
      rw [hsv]
      exact rget_rset_self _ _ _ _ _ (by simp [REntry.live])
    refine ⟨by rw [hsv], ?_, ?_, ?_⟩ <;>
      · rw [rhget_of_rget_hash _ _ _ _ _ hgot]
        simp [hsetFields, List.find?]
  | some rv =>
    cases rv with
    | str s0 => exact absurd hr (hnostr s0)
    | hash old =>
      rcases exists_entry_of_rget_some st now (athleteKey aid) _ hr with
        ⟨e, hfind, hval, hkey, hlv⟩
      have hsv : SaveToken st now secret n1 n2 true aid tok =
          (.ok (), rset st (athleteKey aid)
            (.hash (hsetFields old
              [("access_token", .b64 n1 k tok.AccessToken),
               ("refresh_token", .b64 n2 k tok.RefreshToken),
               ("expires_at", .raw (toString tok.ExpiresAt))])) e.expireAt) := by
        simp [SaveToken, Encrypt, rhset, hk, hfind, hval]
      have hlv2 : REntry.live
          ⟨athleteKey aid,
            .hash (hsetFields old
              [("access_token", .b64 n1 k tok.AccessToken),
               ("refresh_token", .b64 n2 k tok.RefreshToken),
               ("expires_at", .raw (toString tok.ExpiresAt))]), e.expireAt⟩ now =
          true := by
        unfold REntry.live at hlv ⊢
        exact hlv
      have hgot : rget (SaveToken st now secret n1 n2 true aid tok).2 now
          (athleteKey aid) =
          some (.hash (hsetFields old
            [("access_token", .b64 n1 k tok.AccessToken),
             ("refresh_token", .b64 n2 k tok.RefreshToken),
             ("expires_at", .raw (toString tok.ExpiresAt))])) := by
        rw [hsv]
        exact rget_rset_self st now (athleteKey aid) _ e.expireAt hlv2
      refine ⟨by rw [hsv], ?_, ?_, ?_⟩ <;>
        · rw [rhget_of_rget_hash _ _ _ _ _ hgot]
          simp [hsetFields, List.find?]

/-- Witness for C8: empty store, all-zero secret and nonces. -/
theorem C8_witness :
    (SaveToken [] 0
      "0000000000000000000000000000000000000000000000000000000000000000"
      (List.replicate 24 1) (List.replicate 24 2) true 7 ⟨"acc", "refr", 99⟩).1 =
      .ok () ∧
    rhget (SaveToken [] 0
      "0000000000000000000000000000000000000000000000000000000000000000"
      (List.replicate 24 1) (List.replicate 24 2) true 7 ⟨"acc", "refr", 99⟩).2 0
      (athleteKey 7) "access_token" =
      some (.b64 (List.replicate 24 1) (List.replicate 32 0) "acc") ∧
    rhget (SaveToken [] 0
      "0000000000000000000000000000000000000000000000000000000000000000"
      (List.replicate 24 1) (List.replicate 24 2) true 7 ⟨"acc", "refr", 99⟩).2 0
      (athleteKey 7) "refresh_token" =
      some (.b64 (List.replicate 24 2) (List.replicate 32 0) "refr") ∧
    rhget (SaveToken [] 0
      "0000000000000000000000000000000000000000000000000000000000000000"
      (List.replicate 24 1) (List.replicate 24 2) true 7 ⟨"acc", "refr", 99⟩).2 0
      (athleteKey 7) "expires_at" = some (.raw "99") :=
  C8_save_token_encrypts [] 0
    "0000000000000000000000000000000000000000000000000000000000000000"
    (List.replicate 24 1) (List.replicate 24 2) (List.replicate 32 0) 7
    ⟨"acc", "refr", 99⟩ (by decide) (by intro s0 h; cases h)

/-- C3: `fetchTokenInfo` on a stored record whose expiry is strictly in
the past makes exactly one call to the upstream token endpoint, returns
the refreshed pair (so `FetchToken` returns the refreshed access token),
and leaves the persisted record holding the new expiry (and the new
access-token ciphertext). -/
theorem C3_expired_record_refresh (st : RedisState) (now ex : Int)
    (secret : String) (k nA nR n1 n2 : List Nat) (aid : Int) (pA pR es : String)
    (upstream : String → Except String TokenInfo) (newTok : TokenInfo)
    (fields : List (String × CtStr))
    (hk : SecretKeyFromHex secret = .ok k)
    (hv : rget st now (athleteKey aid) = some (.hash fields))
    (hacc : fields.find? (fun p => p.1 = "access_token") =
      some ("access_token", .b64 nA k pA))
    (hrefr : fields.find? (fun p => p.1 = "refresh_token") =
      some ("refresh_token", .b64 nR k pR))
    (hexp : fields.find? (fun p => p.1 = "expires_at") =
      some ("expires_at", .raw es))
    (hparse : parseInt es = some ex)
    (hlt : ex < now)
    (hup : upstream pR = .ok newTok) :
    (fetchTokenInfo st now secret upstream n1 n2 true aid).res = .ok newTok ∧
    (fetchTokenInfo st now secret upstream n1 n2 true aid).refreshCalls = 1 ∧
    (FetchToken st now secret upstream n1 n2 true aid).1 = .ok newTok.AccessToken ∧
    rhget (fetchTokenInfo st now secret upstream n1 n2 true aid).st now
      (athleteKey aid) "expires_at" = some (.raw (toString newTok.ExpiresAt)) ∧
    rhget (fetchTokenInfo st now secret upstream n1 n2 true aid).st now
      (athleteKey aid) "access_token" = some (.b64 n1 k newTok.AccessToken) := by
  have hmg : hmgetTokenInfo st now (athleteKey aid) =
      .ok (.b64 nA k pA, .b64 nR k pR, ex) := by
    simp [hmgetTokenInfo, hv, hacc, hrefr, hexp, hparse]
  rcases exists_entry_of_rget_some st now (athleteKey aid) _ hv with
    ⟨ent, hfind, hval, hkey, hlv⟩
  have hsv : SaveToken st now secret n1 n2 true aid newTok =
      (.ok (), rset st (athleteKey aid)
        (.hash (hsetFields fields
          [("access_token", .b64 n1 k newTok.AccessToken),
           ("refresh_token", .b64 n2 k newTok.RefreshToken),
           ("expires_at", .raw (toString newTok.ExpiresAt))])) ent.expireAt) := by
    simp [SaveToken, Encrypt, rhset, hk, hfind, hval]
  have hfetch : fetchTokenInfo st now secret upstream n1 n2 true aid =
      ⟨.ok newTok, (SaveToken st now secret n1 n2 true aid newTok).2, 1⟩ := by
    simp [fetchTokenInfo, hmg, Decrypt, hk, hlt, refreshToken, hup]
  have hlv2 : REntry.live
      ⟨athleteKey aid,
        .hash (hsetFields fields
          [("access_token", .b64 n1 k newTok.AccessToken),
           ("refresh_token", .b64 n2 k newTok.RefreshToken),
           ("expires_at", .raw (toString newTok.ExpiresAt))]),
        ent.expireAt⟩ now = true := by
    unfold REntry.live at hlv ⊢
    exact hlv
  have hgot : rget (fetchTokenInfo st now secret upstream n1 n2 true aid).st now
      (athleteKey aid) =
      some (.hash (hsetFields fields
        [("access_token", .b64 n1 k newTok.AccessToken),
         ("refresh_token", .b64 n2 k newTok.RefreshToken),
         ("expires_at", .raw (toString newTok.ExpiresAt))])) := by
    rw [hfetch]
    simp only
    rw [hsv]
    exact rget_rset_self st now (athleteKey aid) _ ent.expireAt hlv2
  refine ⟨by rw [hfetch], by rw [hfetch], ?_, ?_, ?_⟩
  · unfold FetchToken
    rw [hfetch]
  · rw [rhget_of_rget_hash _ _ _ _ _ hgot]
    simp [hsetFields, List.find?]
  · rw [rhget_of_rget_hash _ _ _ _ _ hgot]
    simp [hsetFields, List.find?]

/-- Witness for C3: a record expired at 5, queried at 10; the upstream
oracle accepts exactly the stored refresh token. -/
theorem C3_witness :
    (fetchTokenInfo
      [⟨athleteKey 7, .hash
        [("access_token", .b64 (List.replicate 24 3) (List.replicate 32 0) "oldacc"),
         ("refresh_token", .b64 (List.replicate 24 4) (List.replicate 32 0) "oldrefr"),
         ("expires_at", .raw "5")], none⟩] 10
      "0000000000000000000000000000000000000000000000000000000000000000"
      (fun r => if r = "oldrefr" then .ok ⟨"newacc", "newrefr", 2000⟩ else .error "boom")
      (List.replicate 24 5) (List.replicate 24 6) true 7).res =
      .ok ⟨"newacc", "newrefr", 2000⟩ ∧
    (fetchTokenInfo
      [⟨athleteKey 7, .hash
        [("access_token", .b64 (List.replicate 24 3) (List.replicate 32 0) "oldacc"),
         ("refresh_token", .b64 (List.replicate 24 4) (List.replicate 32 0) "oldrefr"),
         ("expires_at", .raw "5")], none⟩] 10
      "0000000000000000000000000000000000000000000000000000000000000000"
      (fun r => if r = "oldrefr" then .ok ⟨"newacc", "newrefr", 2000⟩ else .error "boom")
      (List.replicate 24 5) (List.replicate 24 6) true 7).refreshCalls = 1 := by
  have h := C3_expired_record_refresh
    [⟨athleteKey 7, .hash
      [("access_token", .b64 (List.replicate 24 3) (List.replicate 32 0) "oldacc"),
       ("refresh_token", .b64 (List.replicate 24 4) (List.replicate 32 0) "oldrefr"),
       ("expires_at", .raw "5")], none⟩] 10 5
    "0000000000000000000000000000000000000000000000000000000000000000"
    (List.replicate 32 0) (List.replicate 24 3) (List.replicate 24 4)
    (List.replicate 24 5) (List.replicate 24 6) 7 "oldacc" "oldrefr" "5"
    (fun r => if r = "oldrefr" then .ok ⟨"newacc", "newrefr", 2000⟩ else .error "boom")
    ⟨"newacc", "newrefr", 2000⟩
    [("access_token", .b64 (List.replicate 24 3) (List.replicate 32 0) "oldacc"),
     ("refresh_token", .b64 (List.replicate 24 4) (List.replicate 32 0) "oldrefr"),
     ("expires_at", .raw "5")]
    (by decide) (by decide) (by decide) (by decide) (by decide) (by decide)
    (by decide) (by decide)
  exact ⟨h.1, h.2.1⟩

/-- Every character emitted by `hex.EncodeToString` comes from `hextable`
and in particular is not a colon. -/
theorem hexDigitChar_ne_colon (n : Nat) : hexDigitChar n ≠ ':' := by
  have h : n % 16 < hextable.length := by
    have := Nat.mod_lt n (show 0 < 16 by norm_num)
    simpa [hextable] using this
  unfold hexDigitChar
  rw [List.getD_eq_getElem hextable '0' h]
  intro hc
  have hm : hextable[n % 16] ∈ hextable := List.getElem_mem h
  rw [hc] at hm
  exact absurd hm (by decide)

/-- A hex-encoded byte string contains no colon. -/
theorem hexEncodeList_no_colon (bytes : List Nat) :
    ∀ c ∈ hexEncodeList bytes, c ≠ ':' := by
  induction bytes with
  | nil => intro c hc; cases hc
  | cons b t ih =>
    intro c hc
    rcases hc with _ | ⟨_, hc2⟩
    · exact hexDigitChar_ne_colon _
    · rcases hc2 with _ | ⟨_, hc3⟩
      · exact hexDigitChar_ne_colon _
      · exact ih c hc3

/-- Splitting a colon-free prefix glued to `':' :: r` recovers both
pieces. -/
theorem splitAtFirstColon_append (l r : List Char) (h : ∀ c ∈ l, c ≠ ':') :
    splitAtFirstColon (l ++ ':' :: r) = some (l, r) := by
  induction l with
  | nil => simp [splitAtFirstColon]
  | cons a t ih =>
    have ha : a ≠ ':' := h a (by simp)
    have ht : ∀ c ∈ t, c ≠ ':' := fun c hc => h c (by simp [hc])
    simp [splitAtFirstColon, ha, ih ht]

/-- The `GetOAuthState` split undoes the `SaveOAuthState` concatenation:
because the state token is hex (colon-free) and nonempty, the first colon
of `token:sessionID` sits right after the token, even when the session ID
itself contains colons. -/
theorem splitState_token_sid (bytes : List Nat) (sid : String) (hb : bytes ≠ []) :
    splitState (hexEncode bytes ++ ":" ++ sid) = (hexEncode bytes, sid) := by
  have hdata : (hexEncode bytes ++ ":" ++ sid).data =
      hexEncodeList bytes ++ ':' :: sid.data := by
    simp [hexEncode, String.data_append]
  have hne : hexEncodeList bytes ≠ [] := by
    cases bytes with
    | nil => exact absurd rfl hb
    | cons b t => simp [hexEncodeList]
  unfold splitState
  rw [hdata, splitAtFirstColon_append _ _ (hexEncodeList_no_colon bytes)]
  simp [hne, hexEncode]

/-- C9 counterexample: issuing a CSRF state for the colon-containing
correlator `"sess:1"` and consuming the returned composite value SUCCEEDS
and returns the original correlator — the colon-splitting does not break
the round trip, because `GetOAuthState` splits at the FIRST colon and the
hex state token cannot contain one. -/
theorem C9_counterexample :
    (SaveOAuthState [] 0 (List.replicate 32 0) "sess:1").1 =
      .ok "0000000000000000000000000000000000000000000000000000000000000000:sess:1" ∧
    GetOAuthState (SaveOAuthState [] 0 (List.replicate 32 0) "sess:1").2 0
      "0000000000000000000000000000000000000000000000000000000000000000:sess:1" =
      (.ok "sess:1", []) := by
  refine ⟨by decide, by decide⟩

/-- C9 (amended): for EVERY nonempty session correlator — including ones
containing colons — issuing a state via `SaveOAuthState` and consuming the
returned composite value via `GetOAuthState` before the 10-minute window
elapses returns the original correlator: the split at the first colon is
unambiguous because the 64-hex-character state token contains no colon. -/
theorem C9_roundtrip_with_colon (st st1 : RedisState) (now now2 : Int)
    (bytes : List Nat) (sid stOut : String)
    (hb : bytes ≠ []) (hsid : sid ≠ "")
    (hsave : SaveOAuthState st now bytes sid = (.ok stOut, st1))
    (hfresh : now2 < now + 600) :
    GetOAuthState st1 now2 stOut =
      (.ok sid, rdel st1 ("oauth:state:" ++ hexEncode bytes)) := by
  unfold SaveOAuthState at hsave
  simp only [hsid, if_pos, ite_true, ne_eq, not_false_eq_true, Prod.mk.injEq,
    Except.ok.injEq] at hsave
  obtain ⟨hout, hst1⟩ := hsave
  subst hout
  subst hst1
  unfold GetOAuthState
  rw [splitState_token_sid bytes sid hb]
  have hget : rget (rset st ("oauth:state:" ++ hexEncode bytes) (.str sid)
      (some (now + 600))) now2 ("oauth:state:" ++ hexEncode bytes) =
      some (.str sid) := by
    apply rget_rset_self
    simp [REntry.live]
    omega
  simp [hget]

/-- Witness for C9's amended theorem: the concrete colon-containing
correlator `"a:b"`. -/
theorem C9_roundtrip_witness :
    GetOAuthState (SaveOAuthState [] 0 (List.replicate 32 0) "a:b").2 5
      "0000000000000000000000000000000000000000000000000000000000000000:a:b" =
      (.ok "a:b",
        rdel (SaveOAuthState [] 0 (List.replicate 32 0) "a:b").2
          ("oauth:state:" ++ hexEncode (List.replicate 32 0))) :=
  C9_roundtrip_with_colon [] (SaveOAuthState [] 0 (List.replicate 32 0) "a:b").2
    0 5 (List.replicate 32 0) "a:b"
    "0000000000000000000000000000000000000000000000000000000000000000:a:b"
    (by decide) (by decide) (by decide) (by omega)

/-- C10: when the upstream refresh succeeds but the subsequent `SaveToken`
fails (here: the redis write fails), `refreshToken` still returns the new
pair with NO error — the save error is silently discarded — and the
persisted record is left unchanged, still holding the old expired pair. -/
theorem C10_refresh_discards_save_error (st : RedisState) (now : Int)
    (secret : String) (upstream : String → Except String TokenInfo)
    (n1 n2 k : List Nat) (aid : Int) (tok newTok : TokenInfo)
    (hk : SecretKeyFromHex secret = .ok k)
    (hup : upstream tok.RefreshToken = .ok newTok) :
    (refreshToken st now secret upstream n1 n2 false aid tok).res = .ok newTok ∧
    (refreshToken st now secret upstream n1 n2 false aid tok).st = st ∧
    (SaveToken st now secret n1 n2 false aid newTok).1 =
      .error (.redisFailed "hset") := by
  refine ⟨?_, ?_, ?_⟩ <;> simp [refreshToken, hup, SaveToken, Encrypt, hk]

/-- Witness for C10. -/
theorem C10_witness :
    (refreshToken [] 0
      "0000000000000000000000000000000000000000000000000000000000000000"
      (fun r => if r = "oldrefr" then .ok ⟨"newacc", "newrefr", 2000⟩ else .error "boom")
      (List.replicate 24 0) (List.replicate 24 0) false 7
      ⟨"oldacc", "oldrefr", 5⟩).res = .ok ⟨"newacc", "newrefr", 2000⟩ ∧
    (refreshToken [] 0
      "0000000000000000000000000000000000000000000000000000000000000000"
      (fun r => if r = "oldrefr" then .ok ⟨"newacc", "newrefr", 2000⟩ else .error "boom")
      (List.replicate 24 0) (List.replicate 24 0) false 7
      ⟨"oldacc", "oldrefr", 5⟩).st = [] ∧
    (SaveToken [] 0
      "0000000000000000000000000000000000000000000000000000000000000000"
      (List.replicate 24 0) (List.replicate 24 0) false 7
      ⟨"newacc", "newrefr", 2000⟩).1 = .error (.redisFailed "hset") :=
  C10_refresh_discards_save_error [] 0
    "0000000000000000000000000000000000000000000000000000000000000000"
    (fun r => if r = "oldrefr" then .ok ⟨"newacc", "newrefr", 2000⟩ else .error "boom")
    (List.replicate 24 0) (List.replicate 24 0) (List.replicate 32 0) 7
    ⟨"oldacc", "oldrefr", 5⟩ ⟨"newacc", "newrefr", 2000⟩ (by decide) (by decide)

/-- C7: evaluating `FetchToken` for a subject with NO stored record: the
result is the decryption error "ciphertext too short" — not the
`redis.Nil` subject-not-found kind the spec (and `store.go:64-68`'s dead
branch) intends — because go-redis `HMGET` answers nil fields without
`redis.Nil` for a missing key, and the struct scan leaves an empty
access-token string that then fails base64-length checking in `Decrypt`. -/
theorem C7_missing_subject_decrypt_error :
    FetchToken [] 1000
      "0000000000000000000000000000000000000000000000000000000000000000"
      (fun _ => .error "unreachable") (List.replicate 24 0) (List.replicate 24 0)
      true 7 = (.error (.decryptAccess .ciphertextTooShort), []) ∧
    (Err.decryptAccess .ciphertextTooShort ≠ .redisNil) := by
  refine ⟨by decide, by decide⟩

end StravaHooks
